import Mathlib

/-!
Shallow embedding of the task-ledger storage layer of the repository
(`src/database.py`).

The SQLite tables become lists of rows; rows are structures mirroring the
columns that carry program-visible meaning.  Wall-clock timestamps
(`datetime.utcnow().isoformat()` in `_now`) are modelled by an explicit
`now : Nat` argument threaded into every mutating operation.  Each mutating
method of `Database` becomes a pure function from a state (and its arguments)
to the returned value paired with the successor state; the net effect of a
rolled-back SQLite transaction is the unchanged state.  Audit entries that the
code pushes onto the internal log queue (flushed to the `logs` table by the
background `_log_worker`) are modelled as direct appends to the `logs` list,
i.e. we observe the state after the queue has drained.
-/

namespace OhmaGhost

/-- `tasks.status` values used by the code: `'pending'`, `'submitted'`,
`'approved'`, `'rejected'`. -/
inductive TaskStatus
  | pending
  | submitted
  | approved
  | rejected
deriving DecidableEq

/-- A row of the `users` table. -/
structure UserRow where
  userId : String
  username : String
  displayName : String
  joinedAt : Nat
  isBanned : Bool
deriving DecidableEq

/-- A row of the `works` table (`id INTEGER PRIMARY KEY AUTOINCREMENT`,
`name TEXT UNIQUE NOT NULL`, `is_active INTEGER DEFAULT 1`). -/
structure WorkRow where
  id : Nat
  name : String
  link : String
  addedBy : String
  createdAt : Nat
  isActive : Bool
deriving DecidableEq

/-- A row of the `tasks` table. -/
structure TaskRow where
  id : Nat
  userId : String
  username : String
  displayName : String
  workId : Nat
  chapter : Int
  price : Int
  status : TaskStatus
  assignedBy : String
  createdAt : Nat
  submittedAt : Option Nat
  approvedAt : Option Nat
  rejectedAt : Option Nat
  approvedBy : Option String
  rejectedBy : Option String
  rejectReason : Option String
deriving DecidableEq

/-- A row of the `chapters` table (`UNIQUE(user_id, work_id, chapter)`). -/
structure ChapterRow where
  userId : String
  username : String
  displayName : String
  workId : Nat
  chapter : Int
  price : Int
  approvedBy : String
  createdAt : Nat
deriving DecidableEq

/-- A row of the `logs` table; `logType` is the `type` column
(`'normal'`, `'admin'` or `'financial'`). -/
structure LogRow where
  action : String
  userId : String
  targetId : Option String
  details : List (String × String)
  timestamp : Nat
  logType : String
deriving DecidableEq

/-- The whole database state: the tables plus the AUTOINCREMENT counters the
claims need.  `settings` is the key/value `settings` table. -/
structure DBState where
  users : List UserRow
  works : List WorkRow
  tasks : List TaskRow
  chapters : List ChapterRow
  logs : List LogRow
  settings : List (String × String)
  nextWorkId : Nat
  nextTaskId : Nat
deriving DecidableEq

/-- The freshly created database: all tables empty (`_create_tables`). -/
def emptyDB : DBState :=
  { users := [], works := [], tasks := [], chapters := [], logs := []
    settings := [], nextWorkId := 1, nextTaskId := 1 }

/-- SQLite NOCASE folds the 26 upper-case ASCII letters to lower case and
leaves every other byte alone. -/
def foldChar (c : Char) : Nat :=
  if 65 ≤ c.toNat ∧ c.toNat ≤ 90 then c.toNat + 32 else c.toNat

/-- SQLite `COLLATE NOCASE` comparison: equality after ASCII case folding. -/
def noCaseEq (a b : String) : Bool :=
  a.data.map foldChar == b.data.map foldChar

/-- `get_work_by_name`: `SELECT * FROM works WHERE name = ? COLLATE NOCASE AND
is_active = 1`, taking the first matching row. -/
def get_work_by_name (st : DBState) (name : String) : Option WorkRow :=
  st.works.find? (fun w => noCaseEq w.name name && w.isActive)

/-- Message returned by `add_work` on success. -/
def msgWorkAdded : String := "✅ تمت الإضافة"

/-- Message returned by `add_work` when the insert hits the `UNIQUE` name
constraint. -/
def msgWorkDuplicate : String := "❌ العمل موجود مسبقاً"

/-- `works.name` is declared `TEXT UNIQUE NOT NULL`: the constraint compares
names with the default BINARY collation (case-sensitively) and ignores
`is_active`.  The `idx_works_name` NOCASE index is a plain, non-unique index. -/
def workNameExists (st : DBState) (name : String) : Bool :=
  st.works.any (fun w => w.name == name)

/-- `add_work`: insert the work and enqueue an `add_work` log; any exception
(in practice the `UNIQUE` name violation) is caught and reported as a
duplicate, leaving the state unchanged. -/
def add_work (now : Nat) (st : DBState) (name link addedBy : String) :
    (Bool × String) × DBState :=
  if workNameExists st name then
    ((false, msgWorkDuplicate), st)
  else
    ((true, msgWorkAdded),
     { st with
        works := st.works ++ [⟨st.nextWorkId, name, link, addedBy, now, true⟩]
        nextWorkId := st.nextWorkId + 1
        logs := st.logs ++
          [⟨"add_work", addedBy, none, [("name", name), ("link", link)], now, "normal"⟩] })

/-- Whether a task row matches the `(user_id, work_id, chapter)` key. -/
def sameTaskKey (t : TaskRow) (userId : String) (workId : Nat) (chapter : Int) : Bool :=
  t.userId == userId && t.workId == workId && t.chapter == chapter

/-- `status IN ('pending', 'submitted')`: the scope of the partial unique
index `idx_task_unique_pending`. -/
def isNonTerminal (s : TaskStatus) : Bool :=
  s == .pending || s == .submitted

/-- Whether some task row for this key falls inside the partial unique index,
i.e. the condition under which the `INSERT OR IGNORE` in `create_task` is
ignored. -/
def hasNonTerminalTask (st : DBState) (userId : String) (workId : Nat) (chapter : Int) : Bool :=
  st.tasks.any (fun t => sameTaskKey t userId workId chapter && isNonTerminal t.status)

/-- The `INSERT OR IGNORE INTO users` step of `create_task`; the stored
display name is `display_name or username` (Python truthiness: an empty
string also falls back to the username). -/
def insertUserIfAbsent (now : Nat) (st : DBState) (userId username displayName : String) :
    DBState :=
  if st.users.any (fun u => u.userId == userId) then st
  else
    { st with users := st.users ++
        [⟨userId, username, if displayName == "" then username else displayName, now, false⟩] }

/-- `create_task` validation message for a bad price («السعر يجب أن يكون بين 1 و 10000»). -/
def msgPriceInvalid : String := "❌ السعر يجب أن يكون بين 1 و 10000"

/-- `create_task` validation message for a bad chapter number. -/
def msgChapterInvalid : String := "❌ رقم الفصل غير صالح"

/-- `create_task` message when the work lookup fails. -/
def msgWorkNotFound : String := "❌ العمل غير موجود"

/-- `create_task` message when the partial unique index swallowed the insert. -/
def msgDuplicateTask : String := "❌ هذا الفصل مكلف بالفعل"

/-- `create_task` success message. -/
def msgTaskCreated : String := "✅ تم التكليف"

/-- `Database.create_task`: validate price and chapter, resolve the work name
(NOCASE, active only), lazily insert the user, then `INSERT OR IGNORE` the
pending task; `SELECT changes()` distinguishes a real insert from one ignored
by the partial unique index.  The user insert commits even when the task
insert is ignored. -/
def create_task (now : Nat) (st : DBState) (userId username displayName workName : String)
    (chapter price : Int) (assignedBy : String) : (Bool × String) × DBState :=
  if price ≤ 0 ∨ price > 10000 then
    ((false, msgPriceInvalid), st)
  else if chapter ≤ 0 then
    ((false, msgChapterInvalid), st)
  else
    match get_work_by_name st workName with
    | none => ((false, msgWorkNotFound), st)
    | some w =>
      let st1 := insertUserIfAbsent now st userId username displayName
      if hasNonTerminalTask st1 userId w.id chapter then
        ((false, msgDuplicateTask), st1)
      else
        ((true, msgTaskCreated),
         { st1 with
            tasks := st1.tasks ++
              [⟨st1.nextTaskId, userId, username, displayName, w.id, chapter, price,
                .pending, assignedBy, now, none, none, none, none, none, none⟩]
            nextTaskId := st1.nextTaskId + 1
            logs := st1.logs ++
              [⟨"create_task", assignedBy, some userId,
                [("work_id", toString w.id), ("chapter", toString chapter),
                 ("price", toString price)], now, "normal"⟩] })

/-- `submit_task`: one conditional `UPDATE ... WHERE status = 'pending'`;
returns whether any row changed. -/
def submit_task (now : Nat) (st : DBState) (userId : String) (workId : Nat) (chapter : Int) :
    Bool × DBState :=
  (st.tasks.any (fun t => sameTaskKey t userId workId chapter && t.status == .pending),
   { st with tasks := st.tasks.map (fun t =>
      if sameTaskKey t userId workId chapter && t.status == .pending then
        { t with status := .submitted, submittedAt := some now }
      else t) })

/-- `submit_task_by_name`: resolve the work; a missing work returns `False`,
which is also what `submit_task` returns when no pending row matches. -/
def submit_task_by_name (now : Nat) (st : DBState) (userId workName : String) (chapter : Int) :
    Bool × DBState :=
  match get_work_by_name st workName with
  | none => (false, st)
  | some w => submit_task now st userId w.id chapter

/-- The `SELECT ... WHERE status = 'submitted' AND approved_at IS NULL` of
`approve_task` (first matching row). -/
def findSubmittedTask (st : DBState) (userId : String) (workId : Nat) (chapter : Int) :
    Option TaskRow :=
  st.tasks.find? (fun t =>
    sameTaskKey t userId workId chapter && t.status == .submitted && t.approvedAt == none)

/-- Whether a `chapters` row for the key exists, i.e. whether the
`INSERT OR IGNORE INTO chapters` of `approve_task` would be swallowed by
`UNIQUE(user_id, work_id, chapter)`. -/
def chapterExists (st : DBState) (userId : String) (workId : Nat) (chapter : Int) : Bool :=
  st.chapters.any (fun ch =>
    ch.userId == userId && ch.workId == workId && ch.chapter == chapter)

/-- The financial audit entry `approve_task` enqueues after its commit. -/
def financialApproveLog (now : Nat) (approvedBy userId : String) (workId : Nat)
    (chapter price : Int) : LogRow :=
  ⟨"financial_approve", approvedBy, some userId,
   [("work_id", toString workId), ("chapter", toString chapter),
    ("price", toString price)], now, "financial"⟩

/-- `Database.approve_task`, the `BEGIN IMMEDIATE ... COMMIT/ROLLBACK` block:
select the submitted, not-yet-approved row (else rollback, `None`); reject a
non-positive stored price (rollback, `None`); flip the task to approved;
`INSERT OR IGNORE` the chapter and check `changes()` — zero means the chapter
already existed, so the whole transaction (including the task flip) rolls back
and the caller gets `None`; otherwise commit and enqueue the financial log.
A rolled-back transaction leaves the state exactly as it was. -/
def approve_task (now : Nat) (st : DBState) (userId : String) (workId : Nat) (chapter : Int)
    (approvedBy : String) : Option TaskRow × DBState :=
  match findSubmittedTask st userId workId chapter with
  | none => (none, st)
  | some task =>
    if task.price ≤ 0 then (none, st)
    else if chapterExists st userId workId chapter then (none, st)
    else
      (some task,
       { st with
          tasks := st.tasks.map (fun t =>
            if t.id == task.id then
              { t with status := .approved, approvedBy := some approvedBy,
                       approvedAt := some now }
            else t)
          chapters := st.chapters ++
            [⟨userId, task.username, task.displayName, workId, chapter, task.price,
              approvedBy, now⟩]
          logs := st.logs ++ [financialApproveLog now approvedBy userId workId chapter task.price] })

/-- `approve_task_by_name`: a missing work returns `None`, the same value
`approve_task` gives for every failure. -/
def approve_task_by_name (now : Nat) (st : DBState) (userId workName : String) (chapter : Int)
    (approvedBy : String) : Option TaskRow × DBState :=
  match get_work_by_name st workName with
  | none => (none, st)
  | some w => approve_task now st userId w.id chapter approvedBy

/-- `reject_task`: conditional `UPDATE ... WHERE status = 'submitted'`. -/
def reject_task (now : Nat) (st : DBState) (userId : String) (workId : Nat) (chapter : Int)
    (rejectedBy reason : String) : Bool × DBState :=
  (st.tasks.any (fun t => sameTaskKey t userId workId chapter && t.status == .submitted),
   { st with tasks := st.tasks.map (fun t =>
      if sameTaskKey t userId workId chapter && t.status == .submitted then
        { t with status := .rejected, rejectedBy := some rejectedBy,
                 rejectedAt := some now, rejectReason := some reason }
      else t) })

/-- `reject_task_by_name`: missing work returns `False`, like a missing
submitted row. -/
def reject_task_by_name (now : Nat) (st : DBState) (userId workName : String) (chapter : Int)
    (rejectedBy reason : String) : Bool × DBState :=
  match get_work_by_name st workName with
  | none => (false, st)
  | some w => reject_task now st userId w.id chapter rejectedBy reason

/-- The record `get_user_stats` returns. -/
structure UserStats where
  totalEarned : Int
  chaptersCount : Nat
  recentChapters : List ChapterRow
  pendingTasks : Nat
  submittedTasks : Nat
  displayName : Option String
deriving DecidableEq

/-- `Database.get_user_stats`: `SUM(price)`/`COUNT(*)` over the user's
chapters, the ten most recent chapters (join with `works`), live
pending/submitted counts, and the stored display name. -/
def get_user_stats (st : DBState) (userId : String) : UserStats :=
  let mine := st.chapters.filter (fun c => c.userId == userId)
  { totalEarned := (mine.map (fun c => c.price)).sum
    chaptersCount := mine.length
    recentChapters :=
      ((mine.filter (fun c => st.works.any (fun w => w.id == c.workId))).reverse).take 10
    pendingTasks :=
      (st.tasks.filter (fun t => t.userId == userId && t.status == .pending)).length
    submittedTasks :=
      (st.tasks.filter (fun t => t.userId == userId && t.status == .submitted)).length
    displayName := (st.users.find? (fun u => u.userId == userId)).map (fun u => u.displayName) }

/-- `COUNT(*)` of one user's group in `GROUP BY user_id` over `chapters`. -/
def chapterCount (st : DBState) (u : String) : Nat :=
  (st.chapters.filter (fun c => c.userId == u)).length

/-- `COALESCE(SUM(price), 0)` of one user's group. -/
def chapterTotal (st : DBState) (u : String) : Int :=
  ((st.chapters.filter (fun c => c.userId == u)).map (fun c => c.price)).sum

/-- The group keys of `GROUP BY user_id` over `chapters`: the distinct user
ids that own at least one chapter. -/
def groupUserIds (st : DBState) : List String :=
  (st.chapters.map (fun c => c.userId)).dedup

/-- One concrete evaluation of `SELECT user_id, ... GROUP BY user_id ORDER BY
count DESC LIMIT 5`: sort the groups by count, descending, and keep five.
The query text dictates only the count-descending part; this function fixes
one of the orders SQLite may produce for equal counts. -/
def topUserIds (st : DBState) : List String :=
  (List.insertionSort (fun a b => chapterCount st b ≤ chapterCount st a)
    (groupUserIds st)).take 5

/-- Everything the leaderboard query of `get_team_stats` actually constrains
about an output id list `l`: distinct group keys, counts nonincreasing along
`l`, exactly `min 5 (#groups)` of them, and no excluded group outcounts an
included one.  The relative order of equal-count users is *not* constrained
(the `ORDER BY` has no secondary key). -/
def validTopUserOrder (st : DBState) (l : List String) : Prop :=
  l.Nodup ∧
  (∀ u ∈ l, u ∈ groupUserIds st) ∧
  l.Pairwise (fun a b => chapterCount st b ≤ chapterCount st a) ∧
  l.length = min 5 (groupUserIds st).length ∧
  ∀ u ∈ groupUserIds st, u ∉ l → ∀ v ∈ l, chapterCount st u ≤ chapterCount st v

instance (st : DBState) (l : List String) : Decidable (validTopUserOrder st l) := by
  unfold validTopUserOrder
  infer_instance

/-- The record `get_team_stats` returns; `topUsers` pairs each leader with its
count and total. -/
structure TeamStats where
  totalChapters : Nat
  totalEarnings : Int
  pendingTasks : Nat
  submittedTasks : Nat
  topUsers : List (String × Nat × Int)
deriving DecidableEq

/-- `Database.get_team_stats` (leaderboard realized through `topUserIds`). -/
def get_team_stats (st : DBState) : TeamStats :=
  { totalChapters := st.chapters.length
    totalEarnings := (st.chapters.map (fun c => c.price)).sum
    pendingTasks := (st.tasks.filter (fun t => t.status == .pending)).length
    submittedTasks := (st.tasks.filter (fun t => t.status == .submitted)).length
    topUsers := (topUserIds st).map (fun u => (u, chapterCount st u, chapterTotal st u)) }

/-- The audit entry `delete_all_logs` enqueues for the purge itself
(`log_type="admin"`). -/
def purgeLogEntry (now : Nat) (userId : String) : LogRow :=
  ⟨"delete_all_logs", userId, none, [], now, "admin"⟩

/-- `Database.delete_all_logs`: `DELETE FROM logs WHERE type != 'financial'`,
commit, and only then enqueue the purge's own `admin` entry — so that entry is
written after the delete and survives it. -/
def delete_all_logs (now : Nat) (st : DBState) (userId : String) : DBState :=
  { st with logs :=
      (st.logs.filter (fun e => e.logType == "financial")) ++ [purgeLogEntry now userId] }

/-- `INSERT OR REPLACE INTO settings`: drop any row with the key, append the
new pair. -/
def settingsSet (st : DBState) (key value : String) : DBState :=
  { st with settings := (st.settings.filter (fun kv => kv.1 != key)) ++ [(key, value)] }

/-- `Database.set_owner_id`: an unconditional `INSERT OR REPLACE` — the stored
owner is simply overwritten. -/
def set_owner_id (st : DBState) (ownerId : String) : DBState :=
  settingsSet st "owner_id" ownerId

/-- `Database.get_owner_id`. -/
def get_owner_id (st : DBState) : Option String :=
  (st.settings.find? (fun kv => kv.1 == "owner_id")).map (fun kv => kv.2)

-- The `/set_owner` command flow of `OwnerCog.set_owner` is deliberately not
-- modelled: its first statement calls `db.get_owner()` and its success path
-- `db.set_owner(...)`, neither of which `Database` defines (the class has
-- `get_owner_id`/`set_owner_id`), so every invocation of the command raises
-- `AttributeError` before reading or storing anything.  Only the storage
-- operations above exist as runnable code.

/-- States reachable from the fresh database by the mutating operations of
`Database` (each with arbitrary arguments and clock values). -/
inductive Reachable : DBState → Prop
  | init : Reachable emptyDB
  | addWork (now : Nat) (st : DBState) (n l b : String) :
      Reachable st → Reachable (add_work now st n l b).2
  | createTask (now : Nat) (st : DBState) (u un dn wn : String) (c p : Int) (b : String) :
      Reachable st → Reachable (create_task now st u un dn wn c p b).2
  | submitTask (now : Nat) (st : DBState) (u : String) (w : Nat) (c : Int) :
      Reachable st → Reachable (submit_task now st u w c).2
  | submitTaskByName (now : Nat) (st : DBState) (u wn : String) (c : Int) :
      Reachable st → Reachable (submit_task_by_name now st u wn c).2
  | approveTask (now : Nat) (st : DBState) (u : String) (w : Nat) (c : Int) (b : String) :
      Reachable st → Reachable (approve_task now st u w c b).2
  | approveTaskByName (now : Nat) (st : DBState) (u wn : String) (c : Int) (b : String) :
      Reachable st → Reachable (approve_task_by_name now st u wn c b).2
  | rejectTask (now : Nat) (st : DBState) (u : String) (w : Nat) (c : Int) (b r : String) :
      Reachable st → Reachable (reject_task now st u w c b r).2
  | rejectTaskByName (now : Nat) (st : DBState) (u wn : String) (c : Int) (b r : String) :
      Reachable st → Reachable (reject_task_by_name now st u wn c b r).2
  | deleteAllLogs (now : Nat) (st : DBState) (u : String) :
      Reachable st → Reachable (delete_all_logs now st u)
  | setOwnerId (st : DBState) (o : String) :
      Reachable st → Reachable (set_owner_id st o)

/-- Two task rows may not both be non-terminal with the same
`(user_id, work_id, chapter)` key — the property `idx_task_unique_pending`
enforces. -/
def TaskKeyOk (a b : TaskRow) : Prop :=
  ¬(isNonTerminal a.status = true ∧ isNonTerminal b.status = true ∧
    a.userId = b.userId ∧ a.workId = b.workId ∧ a.chapter = b.chapter)

/-- The partial-uniqueness invariant over the `tasks` table. -/
def NonTerminalUnique (st : DBState) : Prop :=
  st.tasks.Pairwise TaskKeyOk

/-- The `tasks.user_id REFERENCES users` foreign key (enforced by
`PRAGMA foreign_keys = ON`). -/
def UsersFK (st : DBState) : Prop :=
  ∀ t ∈ st.tasks, ∃ u ∈ st.users, u.userId = t.userId

/-- The conjunction of the stored invariants the claims rely on. -/
def Inv (st : DBState) : Prop :=
  NonTerminalUnique st ∧ UsersFK st

/-- State after registering work `"A"` (end-to-end scenario, step 0). -/
def c2_st1 : DBState := (add_work 0 emptyDB "A" "link" "9").2

/-- …after assigning chapter 1 of `"A"` to user 42 at price 100. -/
def c2_st2 : DBState := (create_task 1 c2_st1 "42" "user42" "User42" "A" 1 100 "9").2

/-- …after user 42 submits. -/
def c2_st3 : DBState := (submit_task_by_name 2 c2_st2 "42" "A" 1).2

/-- …after admin 1 approves. -/
def c2_st4 : DBState := (approve_task_by_name 3 c2_st3 "42" "A" 1 "1").2

/-- State holding only the work `"Solo"`. -/
def c7_st1 : DBState := (add_work 0 emptyDB "Solo" "L1" "9").2

/-- A financial log entry used to seed mixed-category audit states. -/
def c5_fin : LogRow := ⟨"financial_approve", "9", some "42", [], 0, "financial"⟩

/-- A normal-category log entry used to seed mixed-category audit states. -/
def c5_norm : LogRow := ⟨"create_task", "9", some "42", [], 0, "normal"⟩

/-- An audit state holding one financial and one non-financial entry. -/
def c5_st : DBState := { emptyDB with logs := [c5_fin, c5_norm] }

/-- A chapters state with two users owning one chapter each (a count tie). -/
def c9_st : DBState :=
  { emptyDB with chapters :=
      [⟨"1", "a", "a", 1, 1, 10, "9", 0⟩, ⟨"2", "b", "b", 1, 2, 10, "9", 1⟩] }

/-- The submitted task row living in `c2_st3`. -/
def c1_task : TaskRow :=
  ⟨1, "42", "user42", "User42", 1, 1, 100, .submitted, "9", 1,
   some 2, none, none, none, none, none⟩

/-- `c2_st3` with a conflicting `chapters` row already present for the key —
the duplicate-approve race state. -/
def c1_st : DBState :=
  { c2_st3 with chapters := c2_st3.chapters ++ [⟨"42", "user42", "User42", 1, 1, 100, "1", 0⟩] }

/-- State where the only task for `(42, work 1, chapter 1)` is rejected. -/
def c8_st : DBState := (reject_task 3 c2_st3 "42" 1 1 "1" "bad").2

/-- C2: the end-to-end scenario.  Starting from a state where work `"A"`
exists and nothing else, `assignTask(42,"A",1,price=100)` then
`submitTask(42,"A",1)` then `approveTask(42,"A",1,admin=1)` all succeed;
`getUserStats(42)` then reports `total_earned = 100` and
`chapters_count = 1`; a second identical `approveTask` returns the conflict
outcome (`None`) while changing nothing, and exactly one `chapters` row exists
for the key. -/
theorem claim_C2 :
    (create_task 1 c2_st1 "42" "user42" "User42" "A" 1 100 "9").1.1 = true ∧
    (submit_task_by_name 2 c2_st2 "42" "A" 1).1 = true ∧
    (approve_task_by_name 3 c2_st3 "42" "A" 1 "1").1.isSome = true ∧
    (get_user_stats c2_st4 "42").totalEarned = 100 ∧
    (get_user_stats c2_st4 "42").chaptersCount = 1 ∧
    approve_task_by_name 4 c2_st4 "42" "A" 1 "1" = (none, c2_st4) ∧
    (c2_st4.chapters.filter
      (fun ch => ch.userId == "42" && ch.workId == 1 && ch.chapter == 1)).length = 1 := by
  refine ⟨by decide, by decide, by decide, by decide, by decide, by decide, by decide⟩

/-- C4: a `create_task` call with a non-positive price, a price above
`MAX_PRICE = 10000`, or a non-positive chapter fails validation before any
storage access: the state ­— whatever it is, work present or not — is returned
unchanged, the result is a failure, and the message is one of the two
validation messages (so the failure did not come from the work lookup or the
task insert). -/
theorem claim_C4 (now : Nat) (st : DBState) (userId username displayName workName : String)
    (chapter price : Int) (assignedBy : String)
    (h : price ≤ 0 ∨ price > 10000 ∨ chapter ≤ 0) :
    (create_task now st userId username displayName workName chapter price assignedBy).2 = st ∧
    (create_task now st userId username displayName workName chapter price assignedBy).1.1
      = false ∧
    ((create_task now st userId username displayName workName chapter price assignedBy).1.2
        = msgPriceInvalid ∨
     (create_task now st userId username displayName workName chapter price assignedBy).1.2
        = msgChapterInvalid) := by
  unfold create_task
  rcases h with h | h | h
  · rw [if_pos (Or.inl h)]
    exact ⟨rfl, rfl, Or.inl rfl⟩
  · rw [if_pos (Or.inr h)]
    exact ⟨rfl, rfl, Or.inl rfl⟩
  · by_cases hp : price ≤ 0 ∨ price > 10000
    · rw [if_pos hp]
      exact ⟨rfl, rfl, Or.inl rfl⟩
    · rw [if_neg hp, if_pos h]
      exact ⟨rfl, rfl, Or.inr rfl⟩

/-- Witness for C4 at price 0 against a state that does hold the work, so the
early exit is observable. -/
theorem claim_C4_witness :
    (create_task 1 c2_st1 "42" "user42" "User42" "A" 1 0 "9").2 = c2_st1 ∧
    (create_task 1 c2_st1 "42" "user42" "User42" "A" 1 0 "9").1.1 = false ∧
    ((create_task 1 c2_st1 "42" "user42" "User42" "A" 1 0 "9").1.2 = msgPriceInvalid ∨
     (create_task 1 c2_st1 "42" "user42" "User42" "A" 1 0 "9").1.2 = msgChapterInvalid) :=
  claim_C4 1 c2_st1 "42" "user42" "User42" "A" 1 0 "9" (Or.inl (by decide))

/-- C5 counterexample: the claim predicts that after a purge *every*
non-financial entry is gone — in particular the purge's own `admin`-category
record, since the purge allegedly writes it *before* deleting.  The code
deletes first and appends its record after, so a non-financial entry (the
purge record) is present in the final log. -/
theorem claim_C5_counterexample :
    ¬ ∀ e ∈ (delete_all_logs 7 c5_st "9").logs, e.logType = "financial" := by
  decide

/-- C6, evaluated at the failing input: `set_owner_id` is an unconditional
`INSERT OR REPLACE`, so a second call silently overwrites the stored owner
instead of failing and leaving it unchanged.  The write-once check the code
documents (the `/set_owner` command, described «مرة واحدة فقط» — once only)
is unreachable: `OwnerCog.set_owner` calls `db.get_owner`/`db.set_owner`,
which `Database` does not define, so the command raises `AttributeError`
before any read or write. -/
theorem claim_C6_counterexample :
    get_owner_id (set_owner_id (set_owner_id emptyDB "1") "2") ≠ some "1" := by
  decide

/-- C7 counterexample: after registering `"Solo"`, registering `"solo"`
*succeeds* (the `works.name UNIQUE` constraint compares with the default
case-sensitive collation), leaving two active works — the claim's predicted
`Conflict` does not happen. -/
theorem claim_C7_counterexample :
    (add_work 1 c7_st1 "solo" "L2" "9").1.1 = true ∧
    (add_work 1 c7_st1 "solo" "L2" "9").2.works.length = 2 := by
  refine ⟨by decide, by decide⟩

/-- C5 (amended): the purge deletes exactly the *pre-existing* entries whose
category is not `financial` — financial entries all survive, every surviving
entry is financial or the purge's own record, and a pre-existing non-financial
entry (other than a log identical to the purge record) is gone — and then the
purge appends its own `admin`-category record, which therefore always
survives; nothing outside the log table changes. -/
theorem claim_C5_amended (now : Nat) (st : DBState) (userId : String) :
    ((delete_all_logs now st userId).users = st.users ∧
     (delete_all_logs now st userId).works = st.works ∧
     (delete_all_logs now st userId).tasks = st.tasks ∧
     (delete_all_logs now st userId).chapters = st.chapters ∧
     (delete_all_logs now st userId).settings = st.settings) ∧
    (∀ e ∈ st.logs, e.logType = "financial" → e ∈ (delete_all_logs now st userId).logs) ∧
    (∀ e ∈ (delete_all_logs now st userId).logs,
        e.logType = "financial" ∨ e = purgeLogEntry now userId) ∧
    (∀ e ∈ st.logs, e.logType ≠ "financial" → e ≠ purgeLogEntry now userId →
        e ∉ (delete_all_logs now st userId).logs) ∧
    purgeLogEntry now userId ∈ (delete_all_logs now st userId).logs := by
  refine ⟨⟨rfl, rfl, rfl, rfl, rfl⟩, ?_, ?_, ?_, ?_⟩
  · intro e he hfin
    have : e ∈ st.logs.filter (fun x => x.logType == "financial") :=
      List.mem_filter.mpr ⟨he, by simp [hfin]⟩
    exact List.mem_append.mpr (Or.inl this)
  · intro e he
    rcases List.mem_append.mp he with h | h
    · exact Or.inl (by simpa using (List.mem_filter.mp h).2)
    · exact Or.inr (by simpa using h)
  · intro e _ hfin hne hmem
    rcases List.mem_append.mp hmem with h | h
    · exact hfin (by simpa using (List.mem_filter.mp h).2)
    · exact hne (by simpa using h)
  · exact List.mem_append.mpr (Or.inr (by simp))

/-- Witness for the amended C5 on a mixed-category log state: the financial
entry survives the purge and the normal entry does not. -/
theorem claim_C5_witness :
    c5_fin ∈ (delete_all_logs 7 c5_st "9").logs ∧
    c5_norm ∉ (delete_all_logs 7 c5_st "9").logs := by
  have h := claim_C5_amended 7 c5_st "9"
  exact ⟨h.2.1 c5_fin (by decide) (by decide),
         h.2.2.2.1 c5_norm (by decide) (by decide) (by decide)⟩

/-- After `set_owner_id`, the stored owner is the value just written
(`INSERT OR REPLACE` removes any previous `owner_id` row and appends the new
one). -/
theorem get_owner_id_set (st : DBState) (o : String) :
    get_owner_id (set_owner_id st o) = some o := by
  unfold get_owner_id set_owner_id settingsSet
  have hnone :
      (st.settings.filter (fun kv => kv.1 != "owner_id")).find?
        (fun kv => kv.1 == "owner_id") = none := by
    refine List.find?_eq_none.mpr ?_
    intro kv hkv
    have := (List.mem_filter.mp hkv).2
    simpa using this
  simp [List.find?_append, hnone]

/-- C7 (amended): `add_work` fails with the duplicate outcome exactly when
some stored work — active or soft-deleted — has the *byte-identical* name;
differently-cased names are admitted as distinct works (`"Solo"` then
`"solo"` both succeed, per `claim_C7_counterexample`). -/
theorem claim_C7_amended (now : Nat) (st : DBState) (name link addedBy : String) :
    ((∃ w ∈ st.works, w.name = name) →
       add_work now st name link addedBy = ((false, msgWorkDuplicate), st)) ∧
    ((¬ ∃ w ∈ st.works, w.name = name) →
       (add_work now st name link addedBy).1 = (true, msgWorkAdded) ∧
       (add_work now st name link addedBy).2.works =
         st.works ++ [⟨st.nextWorkId, name, link, addedBy, now, true⟩]) := by
  have hiff : workNameExists st name = true ↔ ∃ w ∈ st.works, w.name = name := by
    simp [workNameExists]
  constructor
  · intro h
    simp [add_work, hiff.mpr h]
  · intro h
    have hfalse : workNameExists st name = false := by
      rcases Bool.eq_false_or_eq_true (workNameExists st name) with ht | hf
      · exact absurd (hiff.mp ht) h
      · exact hf
    simp [add_work, hfalse]

/-- Witness for the amended C7: re-registering the byte-identical name
`"Solo"` is refused without mutation; the differently-cased `"solo"`
succeeds. -/
theorem claim_C7_witness :
    add_work 1 c7_st1 "Solo" "L2" "9" = ((false, msgWorkDuplicate), c7_st1) ∧
    (add_work 1 c7_st1 "solo" "L2" "9").1 = (true, msgWorkAdded) := by
  refine ⟨(claim_C7_amended 1 c7_st1 "Solo" "L2" "9").1 ?_,
         ((claim_C7_amended 1 c7_st1 "solo" "L2" "9").2 (by decide)).1⟩
  exact ⟨⟨1, "Solo", "L1", "9", 0, true⟩, by decide, rfl⟩

/-- C9 counterexample: on a state where users `"1"` and `"2"` hold one chapter
each, both output orders satisfy everything the leaderboard query constrains —
the query has no secondary sort key, so the order of equal-count users is not
uniquely determined, contradicting the claim. -/
theorem claim_C9_counterexample :
    validTopUserOrder c9_st ["1", "2"] ∧ validTopUserOrder c9_st ["2", "1"] ∧
    (["1", "2"] : List String) ≠ ["2", "1"] := by
  refine ⟨by decide, by decide, by decide⟩

/-- C9 (amended): the leaderboard of `get_team_stats` is ordered by chapter
count descending and keeps the top five groups — everything the
`ORDER BY count DESC LIMIT 5` constrains — but the query has *no* secondary
sort key, so the relative order of users with equal counts is not determined
by it (see `claim_C9_counterexample`).  The realized leaderboard
`topUserIds` satisfies every constraint of `validTopUserOrder`. -/
theorem claim_C9_amended (st : DBState) : validTopUserOrder st (topUserIds st) := by
  have htot : IsTotal String (fun a b => chapterCount st b ≤ chapterCount st a) :=
    ⟨fun a b => (Nat.le_total (chapterCount st b) (chapterCount st a)).imp id id⟩
  have htrans : IsTrans String (fun a b => chapterCount st b ≤ chapterCount st a) :=
    ⟨fun a b c hab hbc => le_trans hbc hab⟩
  have hperm := List.perm_insertionSort
    (fun a b => chapterCount st b ≤ chapterCount st a) (groupUserIds st)
  have hsorted := List.sorted_insertionSort
    (fun a b => chapterCount st b ≤ chapterCount st a) (groupUserIds st)
  set s := List.insertionSort (fun a b => chapterCount st b ≤ chapterCount st a)
    (groupUserIds st) with hs
  have hnodup : s.Nodup := hperm.symm.nodup (List.nodup_dedup _)
  refine ⟨hnodup.sublist (List.take_sublist 5 s), ?_, ?_, ?_, ?_⟩
  · intro u hu
    exact hperm.mem_iff.mp (List.mem_of_mem_take hu)
  · exact List.Pairwise.sublist (List.take_sublist 5 s) hsorted
  · show (s.take 5).length = min 5 (groupUserIds st).length
    rw [List.length_take, hperm.length_eq]
  · intro u hu hnotin v hv
    have hus : u ∈ s := hperm.mem_iff.mpr hu
    rw [← List.take_append_drop 5 s] at hus
    have hud : u ∈ s.drop 5 := by
      rcases List.mem_append.mp hus with h | h
      · exact absurd h hnotin
      · exact h
    have hsp : (s.take 5 ++ s.drop 5).Pairwise
        (fun a b => chapterCount st b ≤ chapterCount st a) := by
      rw [List.take_append_drop]
      exact hsorted
    exact (List.pairwise_append.mp hsp).2.2 v hv u hud

/-- C1: `approve_task` on the unique submitted, not-yet-approved row is
all-or-nothing.  When a `chapters` row for the key already exists (the
duplicate-approve race), the transaction rolls back: the state — the task row
included — is returned exactly unchanged and the caller receives the conflict
outcome `none` (the code's rendering of `AlreadyApproved`).  Otherwise the
task flip, the chapter insert carrying the task's stored price, and the
financial audit entry all land together in the successor state. -/
theorem claim_C1 (now : Nat) (st : DBState) (userId : String) (workId : Nat) (chapter : Int)
    (approvedBy : String) (task : TaskRow)
    (hfind : findSubmittedTask st userId workId chapter = some task) :
    (chapterExists st userId workId chapter = true →
       approve_task now st userId workId chapter approvedBy = (none, st)) ∧
    (chapterExists st userId workId chapter = false → 0 < task.price →
       approve_task now st userId workId chapter approvedBy =
         (some task,
          { st with
             tasks := st.tasks.map (fun t =>
               if t.id == task.id then
                 { t with status := .approved, approvedBy := some approvedBy,
                          approvedAt := some now }
               else t)
             chapters := st.chapters ++
               [⟨userId, task.username, task.displayName, workId, chapter, task.price,
                 approvedBy, now⟩]
             logs := st.logs ++
               [financialApproveLog now approvedBy userId workId chapter task.price] })) := by
  constructor
  · intro hch
    unfold approve_task
    rw [hfind]
    by_cases hp : task.price ≤ 0
    · simp [hp]
    · simp [hp, hch]
  · intro hch hp
    have hp' : ¬ task.price ≤ 0 := not_le.mpr hp
    unfold approve_task
    rw [hfind]
    simp [hp', hch]

/-- Witness for C1: the race state `c1_st` (chapter already present) rolls
back to itself with `none`; the clean state `c2_st3` approves successfully. -/
theorem claim_C1_witness :
    approve_task 9 c1_st "42" 1 1 "1" = (none, c1_st) ∧
    (approve_task 3 c2_st3 "42" 1 1 "1").1 = some c1_task := by
  constructor
  · exact (claim_C1 9 c1_st "42" 1 1 "1" c1_task (by decide)).1 (by decide)
  · rw [(claim_C1 3 c2_st3 "42" 1 1 "1" c1_task (by decide)).2 (by decide) (by decide)]

/-- A conditional `UPDATE` whose condition holds on no row reports zero
changed rows and leaves the table as it was. -/
theorem cond_update_noop (l : List TaskRow) (p : TaskRow → Bool) (f : TaskRow → TaskRow)
    (h : ∀ t ∈ l, p t = false) :
    l.any p = false ∧ (l.map fun t => if p t then f t else t) = l := by
  constructor
  · rw [List.any_eq_false]
    intro t ht
    simp [h t ht]
  · induction l with
    | nil => rfl
    | cons a l ih =>
      have ha := h a (List.mem_cons_self a l)
      have hl : ∀ t ∈ l, p t = false := fun t ht => h t (List.mem_cons_of_mem a ht)
      simp [ha, ih hl]

/-- `insertUserIfAbsent` only touches the `users` table. -/
theorem insertUser_tasks (now : Nat) (st : DBState) (u un dn : String) :
    (insertUserIfAbsent now st u un dn).tasks = st.tasks := by
  unfold insertUserIfAbsent
  split <;> rfl

/-- `insertUserIfAbsent` keeps the task id counter. -/
theorem insertUser_nextTaskId (now : Nat) (st : DBState) (u un dn : String) :
    (insertUserIfAbsent now st u un dn).nextTaskId = st.nextTaskId := by
  unfold insertUserIfAbsent
  split <;> rfl

/-- C8: when every stored task for the key `(user, work, chapter)` is in the
rejected state, a fresh `create_task` for that key (valid price and chapter,
work resolved) succeeds and appends a brand-new pending row — the partial
unique index ignores terminal rows, so a rejected task never blocks
re-assignment. -/
theorem claim_C8 (now : Nat) (st : DBState) (userId username displayName workName : String)
    (chapter price : Int) (assignedBy : String) (w : WorkRow)
    (hw : get_work_by_name st workName = some w)
    (hrej : ∀ t ∈ st.tasks, sameTaskKey t userId w.id chapter = true → t.status = .rejected)
    (hp1 : 0 < price) (hp2 : price ≤ 10000) (hc : 0 < chapter) :
    (create_task now st userId username displayName workName chapter price assignedBy).1 =
      (true, msgTaskCreated) ∧
    (create_task now st userId username displayName workName chapter price assignedBy).2.tasks =
      st.tasks ++
        [⟨st.nextTaskId, userId, username, displayName, w.id, chapter, price,
          .pending, assignedBy, now, none, none, none, none, none, none⟩] := by
  unfold create_task
  rw [if_neg (by omega), if_neg (by omega), hw]
  have htasks := insertUser_tasks now st userId username displayName
  have hnt :
      hasNonTerminalTask (insertUserIfAbsent now st userId username displayName)
        userId w.id chapter = false := by
    unfold hasNonTerminalTask
    rw [htasks, List.any_eq_false]
    intro t ht
    by_cases hsk : sameTaskKey t userId w.id chapter = true
    · have := hrej t ht hsk
      simp [hsk, this, isNonTerminal]
    · simp [Bool.eq_false_iff.mpr hsk]
  simp [hnt, htasks, insertUser_nextTaskId]

/-- Witness for C8 on `c8_st`, whose single task for the key was rejected:
the re-assignment succeeds with a fresh pending row (id 2). -/
theorem claim_C8_witness :
    (create_task 4 c8_st "42" "user42" "User42" "A" 1 120 "9").1 = (true, msgTaskCreated) ∧
    (create_task 4 c8_st "42" "user42" "User42" "A" 1 120 "9").2.tasks =
      c8_st.tasks ++
        [⟨c8_st.nextTaskId, "42", "user42", "User42", 1, 1, 120,
          .pending, "9", 4, none, none, none, none, none, none⟩] :=
  claim_C8 4 c8_st "42" "user42" "User42" "A" 1 120 "9" ⟨1, "A", "link", "9", 0, true⟩
    (by decide) (by decide) (by decide) (by decide) (by decide)

/-- C10: each `*_task_by_name` operation returns, when the work name has no
active match, exactly the value it returns when the work exists but no task in
the required state matches: `false` for submit and reject, `none` for approve.
The two failure causes are therefore indistinguishable to the caller. -/
theorem claim_C10 (now : Nat) (st : DBState) (userId workName : String) (chapter : Int)
    (approvedBy rejectedBy reason : String) :
    (get_work_by_name st workName = none →
       submit_task_by_name now st userId workName chapter = (false, st) ∧
       approve_task_by_name now st userId workName chapter approvedBy = (none, st) ∧
       reject_task_by_name now st userId workName chapter rejectedBy reason = (false, st)) ∧
    (∀ w, get_work_by_name st workName = some w →
       ((∀ t ∈ st.tasks, sameTaskKey t userId w.id chapter = true → t.status ≠ .pending) →
          submit_task_by_name now st userId workName chapter = (false, st)) ∧
       (findSubmittedTask st userId w.id chapter = none →
          approve_task_by_name now st userId workName chapter approvedBy = (none, st)) ∧
       ((∀ t ∈ st.tasks, sameTaskKey t userId w.id chapter = true → t.status ≠ .submitted) →
          reject_task_by_name now st userId workName chapter rejectedBy reason = (false, st))) := by
  constructor
  · intro hw
    unfold submit_task_by_name approve_task_by_name reject_task_by_name
    rw [hw]
    exact ⟨rfl, rfl, rfl⟩
  · intro w hw
    refine ⟨?_, ?_, ?_⟩
    · intro h
      unfold submit_task_by_name
      rw [hw]
      show submit_task now st userId w.id chapter = (false, st)
      unfold submit_task
      have hcond : ∀ t ∈ st.tasks,
          (sameTaskKey t userId w.id chapter && t.status == TaskStatus.pending) = false := by
        intro t ht
        by_cases hsk : sameTaskKey t userId w.id chapter = true
        · simp [hsk, h t ht hsk]
        · simp [Bool.eq_false_iff.mpr hsk]
      have h1 : (st.tasks.any fun t =>
          sameTaskKey t userId w.id chapter && t.status == TaskStatus.pending) = false :=
        (cond_update_noop st.tasks _ (fun t => t) hcond).1
      have h2 : (st.tasks.map fun t =>
          if sameTaskKey t userId w.id chapter && t.status == TaskStatus.pending then
            { t with status := TaskStatus.submitted, submittedAt := some now }
          else t) = st.tasks :=
        (cond_update_noop st.tasks _ _ hcond).2
      rw [h1, h2]
    · intro h
      unfold approve_task_by_name
      rw [hw]
      unfold approve_task
      simp [h]
    · intro h
      unfold reject_task_by_name
      rw [hw]
      show reject_task now st userId w.id chapter rejectedBy reason = (false, st)
      unfold reject_task
      have hcond : ∀ t ∈ st.tasks,
          (sameTaskKey t userId w.id chapter && t.status == TaskStatus.submitted) = false := by
        intro t ht
        by_cases hsk : sameTaskKey t userId w.id chapter = true
        · simp [hsk, h t ht hsk]
        · simp [Bool.eq_false_iff.mpr hsk]
      have h1 : (st.tasks.any fun t =>
          sameTaskKey t userId w.id chapter && t.status == TaskStatus.submitted) = false :=
        (cond_update_noop st.tasks _ (fun t => t) hcond).1
      have h2 : (st.tasks.map fun t =>
          if sameTaskKey t userId w.id chapter && t.status == TaskStatus.submitted then
            { t with status := TaskStatus.rejected, rejectedBy := some rejectedBy,
                     rejectedAt := some now, rejectReason := some reason }
          else t) = st.tasks :=
        (cond_update_noop st.tasks _ _ hcond).2
      rw [h1, h2]

/-- Unpacking `sameTaskKey`. -/
theorem sameTaskKey_eq (t : TaskRow) (u : String) (w : Nat) (c : Int)
    (h : sameTaskKey t u w c = true) : t.userId = u ∧ t.workId = w ∧ t.chapter = c := by
  unfold sameTaskKey at h
  simp at h
  exact ⟨h.1.1, h.1.2, h.2⟩

/-- A task-row transformation that keeps the key and never turns a terminal
status non-terminal preserves the pairwise partial-uniqueness property. -/
theorem taskKeyOk_map (f : TaskRow → TaskRow)
    (hkey : ∀ t, (f t).userId = t.userId ∧ (f t).workId = t.workId ∧ (f t).chapter = t.chapter)
    (hnt : ∀ t, isNonTerminal (f t).status = true → isNonTerminal t.status = true)
    {l : List TaskRow} (h : l.Pairwise TaskKeyOk) : (l.map f).Pairwise TaskKeyOk := by
  rw [List.pairwise_map]
  refine h.imp ?_
  intro a b hab hcon
  obtain ⟨h1, h2, h3, h4, h5⟩ := hcon
  rw [(hkey a).1, (hkey b).1] at h3
  rw [(hkey a).2.1, (hkey b).2.1] at h4
  rw [(hkey a).2.2, (hkey b).2.2] at h5
  exact hab ⟨hnt a h1, hnt b h2, h3, h4, h5⟩

/-- An `UPDATE` that rewrites task rows in place (keeping keys and the user
column) preserves both stored invariants. -/
theorem inv_map_status (st : DBState) (f : TaskRow → TaskRow)
    (hkey : ∀ t, (f t).userId = t.userId ∧ (f t).workId = t.workId ∧ (f t).chapter = t.chapter)
    (hnt : ∀ t, isNonTerminal (f t).status = true → isNonTerminal t.status = true)
    (h : Inv st) : Inv { st with tasks := st.tasks.map f } := by
  refine ⟨taskKeyOk_map f hkey hnt h.1, ?_⟩
  intro t ht
  obtain ⟨a, ha, rfl⟩ := List.mem_map.mp ht
  obtain ⟨x, hx, he⟩ := h.2 a ha
  exact ⟨x, hx, by rw [(hkey a).1]; exact he⟩

/-- `add_work` touches no task or user row. -/
theorem inv_add_work (now : Nat) (st : DBState) (n l b : String) (h : Inv st) :
    Inv (add_work now st n l b).2 := by
  unfold add_work
  split
  · exact h
  · exact h

/-- The lazy user insert preserves the invariants (it only grows `users`). -/
theorem inv_insertUser (now : Nat) (st : DBState) (u un dn : String) (h : Inv st) :
    Inv (insertUserIfAbsent now st u un dn) := by
  unfold insertUserIfAbsent
  split
  · exact h
  · refine ⟨h.1, ?_⟩
    intro t ht
    obtain ⟨x, hx, he⟩ := h.2 t ht
    exact ⟨x, List.mem_append_left _ hx, he⟩

/-- After the lazy insert, a row for the user id is present. -/
theorem insertUser_mem (now : Nat) (st : DBState) (u un dn : String) :
    ∃ x ∈ (insertUserIfAbsent now st u un dn).users, x.userId = u := by
  unfold insertUserIfAbsent
  split
  · next hcond =>
    obtain ⟨x, hx, he⟩ := List.any_eq_true.mp hcond
    exact ⟨x, hx, by simpa using he⟩
  · exact ⟨_, List.mem_append_right _ (List.mem_singleton_self _), rfl⟩

/-- `create_task` preserves the invariants: the guard of the partial unique
index protects the append, and the user row is inserted before the task. -/
theorem inv_create_task (now : Nat) (st : DBState) (u un dn wn : String) (c p : Int)
    (b : String) (h : Inv st) : Inv (create_task now st u un dn wn c p b).2 := by
  unfold create_task
  by_cases h1 : p ≤ 0 ∨ p > 10000
  · rw [if_pos h1]
    exact h
  rw [if_neg h1]
  by_cases h2 : c ≤ 0
  · rw [if_pos h2]
    exact h
  rw [if_neg h2]
  cases hw : get_work_by_name st wn with
  | none => exact h
  | some w =>
    dsimp only
    have hst1 : Inv (insertUserIfAbsent now st u un dn) := inv_insertUser now st u un dn h
    by_cases h3 :
        hasNonTerminalTask (insertUserIfAbsent now st u un dn) u w.id c = true
    · rw [if_pos h3]
      exact hst1
    · rw [if_neg h3]
      constructor
      · refine List.pairwise_append.mpr ⟨hst1.1, List.pairwise_singleton _ _, ?_⟩
        intro a ha bnew hb
        have hbnew : bnew =
            ⟨(insertUserIfAbsent now st u un dn).nextTaskId, u, un, dn, w.id, c, p,
             .pending, b, now, none, none, none, none, none, none⟩ := by
          simpa using hb
        subst hbnew
        rintro ⟨hnta, _, he1, he2, he3⟩
        refine h3 ?_
        unfold hasNonTerminalTask
        rw [List.any_eq_true]
        refine ⟨a, ha, ?_⟩
        have : sameTaskKey a u w.id c = true := by
          unfold sameTaskKey
          simp [he1, he2, he3]
        simp [this, hnta]
      · intro t ht
        rcases List.mem_append.mp ht with hta | htn
        · exact hst1.2 t hta
        · have htn' : t =
              ⟨(insertUserIfAbsent now st u un dn).nextTaskId, u, un, dn, w.id, c, p,
               .pending, b, now, none, none, none, none, none, none⟩ := by
            simpa using htn
          subst htn'
          obtain ⟨x, hx, he⟩ := insertUser_mem now st u un dn
          exact ⟨x, hx, he⟩

/-- `submit_task` preserves the invariants (pending rows become submitted,
still non-terminal, same key). -/
theorem inv_submit_task (now : Nat) (st : DBState) (u : String) (w : Nat) (c : Int)
    (h : Inv st) : Inv (submit_task now st u w c).2 := by
  unfold submit_task
  refine inv_map_status st _ ?_ ?_ h
  · intro t
    by_cases hc : (sameTaskKey t u w c && t.status == TaskStatus.pending) = true
    · rw [if_pos hc]
      exact ⟨rfl, rfl, rfl⟩
    · rw [if_neg hc]
      exact ⟨rfl, rfl, rfl⟩
  · intro t
    by_cases hc : (sameTaskKey t u w c && t.status == TaskStatus.pending) = true
    · rw [if_pos hc]
      intro _
      rw [Bool.and_eq_true] at hc
      have hp : t.status = TaskStatus.pending := by simpa using hc.2
      simp [isNonTerminal, hp]
    · rw [if_neg hc]
      exact id

/-- `approve_task` preserves the invariants (the flip is to a terminal
status; chapters and logs are outside the invariant). -/
theorem inv_approve_task (now : Nat) (st : DBState) (u : String) (w : Nat) (c : Int)
    (b : String) (h : Inv st) : Inv (approve_task now st u w c b).2 := by
  unfold approve_task
  cases hf : findSubmittedTask st u w c with
  | none => exact h
  | some task =>
    dsimp only
    by_cases h1 : task.price ≤ 0
    · rw [if_pos h1]
      exact h
    rw [if_neg h1]
    by_cases h2 : chapterExists st u w c = true
    · rw [if_pos h2]
      exact h
    · rw [if_neg h2]
      refine inv_map_status st _ ?_ ?_ h
      · intro t
        by_cases hc : (t.id == task.id) = true
        · rw [if_pos hc]
          exact ⟨rfl, rfl, rfl⟩
        · rw [if_neg hc]
          exact ⟨rfl, rfl, rfl⟩
      · intro t
        by_cases hc : (t.id == task.id) = true
        · rw [if_pos hc]
          intro hcontra
          simp [isNonTerminal] at hcontra
        · rw [if_neg hc]
          exact id

/-- `reject_task` preserves the invariants (the flip is to a terminal
status). -/
theorem inv_reject_task (now : Nat) (st : DBState) (u : String) (w : Nat) (c : Int)
    (b r : String) (h : Inv st) : Inv (reject_task now st u w c b r).2 := by
  unfold reject_task
  refine inv_map_status st _ ?_ ?_ h
  · intro t
    by_cases hc : (sameTaskKey t u w c && t.status == TaskStatus.submitted) = true
    · rw [if_pos hc]
      exact ⟨rfl, rfl, rfl⟩
    · rw [if_neg hc]
      exact ⟨rfl, rfl, rfl⟩
  · intro t
    by_cases hc : (sameTaskKey t u w c && t.status == TaskStatus.submitted) = true
    · rw [if_pos hc]
      intro hcontra
      simp [isNonTerminal] at hcontra
    · rw [if_neg hc]
      exact id

/-- Every state the operations can reach satisfies the partial-uniqueness
and foreign-key invariants. -/
theorem inv_reachable (st : DBState) (h : Reachable st) : Inv st := by
  induction h with
  | init =>
    exact ⟨List.Pairwise.nil, by intro t ht; cases ht⟩
  | addWork now st n l b _ ih => exact inv_add_work now st n l b ih
  | createTask now st u un dn wn c p b _ ih => exact inv_create_task now st u un dn wn c p b ih
  | submitTask now st u w c _ ih => exact inv_submit_task now st u w c ih
  | submitTaskByName now st u wn c _ ih =>
    unfold submit_task_by_name
    cases hw : get_work_by_name st wn with
    | none => exact ih
    | some w => exact inv_submit_task now st u w.id c ih
  | approveTask now st u w c b _ ih => exact inv_approve_task now st u w c b ih
  | approveTaskByName now st u wn c b _ ih =>
    unfold approve_task_by_name
    cases hw : get_work_by_name st wn with
    | none => exact ih
    | some w => exact inv_approve_task now st u w.id c b ih
  | rejectTask now st u w c b r _ ih => exact inv_reject_task now st u w c b r ih
  | rejectTaskByName now st u wn c b r _ ih =>
    unfold reject_task_by_name
    cases hw : get_work_by_name st wn with
    | none => exact ih
    | some w => exact inv_reject_task now st u w.id c b r ih
  | deleteAllLogs now st u _ ih => exact ih
  | setOwnerId st o _ ih => exact ih

/-- C3: in every reachable state, at most one non-terminal (pending or
submitted) task row exists per `(user, work, chapter)` key; and a
`create_task` call for a key that currently has a non-terminal row — with
valid price and chapter, and the work name resolving to that row's work —
returns the duplicate outcome and leaves the *entire* state unchanged (no
task, no user row, no audit entry). -/
theorem claim_C3 (st : DBState) (hst : Reachable st) :
    NonTerminalUnique st ∧
    ∀ (now : Nat) (userId username displayName workName : String) (chapter price : Int)
      (assignedBy : String) (w : WorkRow),
      get_work_by_name st workName = some w →
      hasNonTerminalTask st userId w.id chapter = true →
      0 < price → price ≤ 10000 → 0 < chapter →
      create_task now st userId username displayName workName chapter price assignedBy =
        ((false, msgDuplicateTask), st) := by
  have hinv := inv_reachable st hst
  refine ⟨hinv.1, ?_⟩
  intro now userId username displayName workName chapter price assignedBy w hw hnt hp1 hp2 hc
  unfold create_task
  rw [if_neg (by omega), if_neg (by omega), hw]
  have huser : ∃ x ∈ st.users, x.userId = userId := by
    obtain ⟨t, ht, hcond⟩ := List.any_eq_true.mp hnt
    rw [Bool.and_eq_true] at hcond
    have hsk := sameTaskKey_eq t userId w.id chapter hcond.1
    obtain ⟨x, hx, he⟩ := hinv.2 t ht
    exact ⟨x, hx, he.trans hsk.1⟩
  have hins : insertUserIfAbsent now st userId username displayName = st := by
    unfold insertUserIfAbsent
    obtain ⟨x, hx, he⟩ := huser
    rw [if_pos (List.any_eq_true.mpr ⟨x, hx, by simp [he]⟩)]
  dsimp only
  rw [hins, if_pos hnt]

/-- Witness for C3 on the reachable state `c2_st2` (a pending task for
`(42, work 1, chapter 1)` exists): a second identical assignment is refused
with no state change, and the uniqueness invariant holds. -/
theorem claim_C3_witness :
    NonTerminalUnique c2_st2 ∧
    create_task 9 c2_st2 "42" "user42" "User42" "A" 1 100 "9" =
      ((false, msgDuplicateTask), c2_st2) := by
  have h0 : Reachable emptyDB := Reachable.init
  have h1 : Reachable c2_st1 := Reachable.addWork 0 emptyDB "A" "link" "9" h0
  have h2 : Reachable c2_st2 :=
    Reachable.createTask 1 c2_st1 "42" "user42" "User42" "A" 1 100 "9" h1
  have h := claim_C3 c2_st2 h2
  exact ⟨h.1, h.2 9 "42" "user42" "User42" "A" 1 100 "9" ⟨1, "A", "link", "9", 0, true⟩
    (by decide) (by decide) (by decide) (by decide) (by decide)⟩

/-- Witness for C10: on `c2_st1` (work `"A"` exists, no tasks at all) the
missing-work name `"B"` and the present work `"A"` with no matching task both
yield the very same values. -/
theorem claim_C10_witness :
    (submit_task_by_name 5 c2_st1 "42" "B" 1 = (false, c2_st1) ∧
     approve_task_by_name 5 c2_st1 "42" "B" 1 "1" = (none, c2_st1) ∧
     reject_task_by_name 5 c2_st1 "42" "B" 1 "1" "r" = (false, c2_st1)) ∧
    (submit_task_by_name 5 c2_st1 "42" "A" 1 = (false, c2_st1) ∧
     approve_task_by_name 5 c2_st1 "42" "A" 1 "1" = (none, c2_st1) ∧
     reject_task_by_name 5 c2_st1 "42" "A" 1 "1" "r" = (false, c2_st1)) := by
  have h1 := (claim_C10 5 c2_st1 "42" "B" 1 "1" "1" "r").1 (by decide)
  have h2 := (claim_C10 5 c2_st1 "42" "A" 1 "1" "1" "r").2 ⟨1, "A", "link", "9", 0, true⟩
    (by decide)
  exact ⟨h1, h2.1 (by decide), h2.2.1 (by decide), h2.2.2 (by decide)⟩

end OhmaGhost
